import Mathlib

/-!
# Verification of the task-tracker storage backends and API layer

Shallow embedding of the repository's `db.py` (in-memory and SQLite
storage backends, backend selector) and `app.py` (Flask request
handlers), with theorems settling the frozen specification claims.

Python dynamic values that matter to the claims (the `done` cell of an
in-memory row, JSON request bodies) are embedded as inductive types with
explicit truthiness, so that coercions such as `bool(done)` and
`(x or "")` appear in the model exactly where the source applies them.
-/

namespace TaskTracker

/-- A Python value as it can appear in the `done` cell of an in-memory
row or as an argument to `update_task` (the claims only need scalars). -/
inductive PyVal where
  | none
  | bool (b : Bool)
  | int (n : Int)
  | str (s : String)
  deriving Repr, DecidableEq

/-- Python truthiness `bool(v)` for the embedded scalar values. -/
def pyTruthy : PyVal → Bool
  | .none => false
  | .bool b => b
  | .int n => n != 0
  | .str s => s != ""

/-- Whether a Python value is exactly a `bool` (`True` or `False`). -/
def PyVal.isBool : PyVal → Bool
  | .bool _ => true
  | _ => false

/-- A task record as `db.py` stores and returns it: the Python dict
`{"id": ..., "title": ..., "done": ...}`.  `done` is kept as a dynamic
Python value because `MemoryBackend.update_task` may be handed a
non-boolean and stores `bool(done)`. -/
structure Row where
  id : Nat
  title : String
  done : PyVal
  deriving Repr, DecidableEq

/-- State of `MemoryBackend`: `self._data` (a Python dict from id to row,
embedded as an insertion-ordered association list with unique keys) and
`self._next_id`. -/
structure MemState where
  data : List (Nat × Row)
  nextId : Nat
  deriving Repr, DecidableEq

/-- `MemoryBackend.__init__`: empty dict, next id counter 1. -/
def memInit : MemState := { data := [], nextId := 1 }

/-- Python `dict.get(k)`: the binding for key `k`, if any. -/
def dictGet (d : List (Nat × Row)) (k : Nat) : Option Row :=
  (d.find? (fun p => p.1 == k)).map Prod.snd

/-- Python `d[k] = v`: overwrite the existing binding in place (dicts
keep the key's original position), else append a new binding. -/
def dictSet (d : List (Nat × Row)) (k : Nat) (v : Row) : List (Nat × Row) :=
  if (d.find? (fun p => p.1 == k)).isSome then
    d.map (fun p => if p.1 == k then (k, v) else p)
  else
    d ++ [(k, v)]

/-- Python `d.pop(k, None)`: drop the binding for `k` (the first match
in the association list, mirroring the unique binding of a dict). -/
def dictPop (d : List (Nat × Row)) (k : Nat) : List (Nat × Row) :=
  d.eraseP (fun p => p.1 == k)

/-- `MemoryBackend._to_dict`: rebuild the dict, coercing `done` with
Python `bool(...)`. -/
def memToDict (r : Row) : Row :=
  { id := r.id, title := r.title, done := .bool (pyTruthy r.done) }

/-- Python `sorted(values, key=lambda r: r["id"])`: a stable sort of
the rows ascending by id. -/
def sortRows (l : List Row) : List Row :=
  List.insertionSort (fun a b => a.id ≤ b.id) l

/-- `MemoryBackend.get_all_tasks`. -/
def memGetAll (s : MemState) : List Row :=
  (sortRows (s.data.map Prod.snd)).map memToDict

/-- `MemoryBackend.get_task`. -/
def memGet (s : MemState) (taskId : Nat) : Option Row :=
  (dictGet s.data taskId).map memToDict

/-- `MemoryBackend.create_task`: store `{"id": next_id, "title": title,
"done": False}` under key `next_id`, bump the counter, return
`_to_dict(task)`. -/
def memCreate (s : MemState) (title : String) : Row × MemState :=
  let task : Row := { id := s.nextId, title := title, done := .bool false }
  (memToDict task, { data := dictSet s.data s.nextId task, nextId := s.nextId + 1 })

/-- `MemoryBackend.update_task`: look the row up; if present, overwrite
`title` when supplied and `done` (coerced with `bool`) when supplied —
the source mutates the stored dict in place, embedded here as writing
the modified row back under its key — and return `_to_dict(row)`. -/
def memUpdate (s : MemState) (taskId : Nat) (title : Option String)
    (done : Option PyVal) : Option Row × MemState :=
  match dictGet s.data taskId with
  | Option.none => (Option.none, s)
  | Option.some row =>
    let row1 := match title with
      | Option.some t => { row with title := t }
      | Option.none => row
    let row2 := match done with
      | Option.some v => { row1 with done := .bool (pyTruthy v) }
      | Option.none => row1
    (Option.some (memToDict row2), { s with data := dictSet s.data taskId row2 })

/-- `MemoryBackend.delete_task`: `self._data.pop(task_id, None) is not None`. -/
def memDelete (s : MemState) (taskId : Nat) : Bool × MemState :=
  match dictGet s.data taskId with
  | Option.none => (false, s)
  | Option.some _ => (true, { s with data := dictPop s.data taskId })

/-- Well-formedness of an in-memory state, true of every state the
backend can reach: keys are pairwise distinct (a dict property), each
row's `id` field equals its key, and every key is below the counter. -/
def MemWF (s : MemState) : Prop :=
  (s.data.map Prod.fst).Nodup ∧
    ∀ p ∈ s.data, p.2.id = p.1 ∧ p.1 < s.nextId

-- Basic dictionary lemmas

theorem dictGet_nil (k : Nat) : dictGet [] k = Option.none := rfl

theorem dictGet_dictSet_self (d : List (Nat × Row)) (k : Nat) (v : Row) :
    dictGet (dictSet d k v) k = Option.some v := by
  unfold dictSet
  by_cases h : (d.find? (fun p => p.1 == k)).isSome
  · rw [if_pos h]
    induction d with
    | nil => simp at h
    | cons p d ih =>
      by_cases hp : p.1 == k
      · have hfp : (if (p.1 == k) = true then (k, v) else p) = (k, v) := if_pos hp
        simp only [dictGet, List.map_cons, hfp]
        rw [List.find?_cons_of_pos _ (by simp)]
        rfl
      · have hfp : (if (p.1 == k) = true then (k, v) else p) = p := if_neg hp
        rw [List.find?_cons_of_neg (p := fun q : Nat × Row => q.1 == k) d hp] at h
        have := ih h
        simp only [dictGet, List.map_cons, hfp] at this ⊢
        rwa [List.find?_cons_of_neg (p := fun q : Nat × Row => q.1 == k) _ hp]
  · rw [if_neg h]
    have hnone : d.find? (fun p => p.1 == k) = Option.none :=
      Option.not_isSome_iff_eq_none.mp h
    unfold dictGet
    rw [List.find?_append, hnone]
    rw [List.find?_cons_of_pos _ (by simp)]
    rfl

theorem dictGet_eq_none_of_wf_nextId (s : MemState) (hwf : MemWF s) :
    dictGet s.data s.nextId = Option.none := by
  unfold dictGet
  rw [List.find?_eq_none.mpr]
  · rfl
  · intro p hp hbeq
    have hlt := (hwf.2 p hp).2
    have : p.1 = s.nextId := by simpa using hbeq
    omega

/-- C1: for every non-empty title `t`, `create_task(t)` succeeds and
returns a record with title `t`, `done = False` and the freshly
assigned id `next_id` (not previously in use), and `get_task` on that
id afterwards returns a record equal to the returned one. -/
theorem memCreate_then_get (s : MemState) (t : String) (ht : t ≠ "")
    (hwf : MemWF s) :
    (memCreate s t).1.title = t ∧
    (memCreate s t).1.done = PyVal.bool false ∧
    (memCreate s t).1.id = s.nextId ∧
    memGet s (memCreate s t).1.id = Option.none ∧
    memGet (memCreate s t).2 (memCreate s t).1.id =
      Option.some (memCreate s t).1 := by
  refine ⟨rfl, rfl, rfl, ?_, ?_⟩
  · show (dictGet s.data s.nextId).map memToDict = Option.none
    rw [dictGet_eq_none_of_wf_nextId s hwf]
    rfl
  show (dictGet (dictSet s.data s.nextId _) s.nextId).map memToDict = _
  rw [dictGet_dictSet_self]
  rfl

/-- Concrete instance of `memCreate_then_get` on the fresh backend with
title `"Test"` (the spec's own scenario). -/
theorem memCreate_then_get_witness :
    (("Test" : String) ≠ "" ∧ MemWF memInit) ∧
    ((memCreate memInit "Test").1.title = "Test" ∧
    (memCreate memInit "Test").1.done = PyVal.bool false ∧
    (memCreate memInit "Test").1.id = memInit.nextId ∧
    memGet memInit (memCreate memInit "Test").1.id = Option.none ∧
    memGet (memCreate memInit "Test").2 (memCreate memInit "Test").1.id =
      Option.some (memCreate memInit "Test").1) :=
  ⟨⟨by decide, ⟨List.nodup_nil, fun p hp => absurd hp (List.not_mem_nil p)⟩⟩,
    memCreate_then_get memInit "Test" (by decide)
      ⟨List.nodup_nil, fun p hp => absurd hp (List.not_mem_nil p)⟩⟩

/-- One direct call into the in-memory backend's mutating interface. -/
inductive MOp where
  | create (title : String)
  | update (taskId : Nat) (title : Option String) (done : Option PyVal)
  | delete (taskId : Nat)
  deriving Repr, DecidableEq

/-- State after one backend call (read-only calls leave the state as is,
so only the mutating ones appear). -/
def applyOp (s : MemState) : MOp → MemState
  | .create t => (memCreate s t).2
  | .update i t d => (memUpdate s i t d).2
  | .delete i => (memDelete s i).2

/-- State after a sequence of backend calls. -/
def execOps (s : MemState) (ops : List MOp) : MemState := ops.foldl applyOp s

theorem nextId_applyOp (s : MemState) (op : MOp) :
    s.nextId ≤ (applyOp s op).nextId := by
  cases op with
  | create t => exact Nat.le_succ _
  | update i t d =>
    show s.nextId ≤ (memUpdate s i t d).2.nextId
    unfold memUpdate
    cases hd : dictGet s.data i <;> simp
  | delete i =>
    show s.nextId ≤ (memDelete s i).2.nextId
    unfold memDelete
    cases hd : dictGet s.data i <;> simp

theorem nextId_le_execOps (ops : List MOp) :
    ∀ s : MemState, s.nextId ≤ (execOps s ops).nextId := by
  induction ops with
  | nil => intro s; exact le_rfl
  | cons op ops ih =>
    intro s
    exact le_trans (nextId_applyOp s op) (ih (applyOp s op))

/-- C6: within one in-memory backend instance ids are never reused: the
counter starts at 1, `create_task` hands out the counter value and
increments it, no operation (deletes included) ever decreases it, and a
task created strictly after another gets a strictly greater id. -/
theorem memIds_monotonic :
    memInit.nextId = 1 ∧
    (∀ (s : MemState) (t : String),
      (memCreate s t).1.id = s.nextId ∧
      (memCreate s t).2.nextId = s.nextId + 1) ∧
    (∀ (s : MemState) (op : MOp), s.nextId ≤ (applyOp s op).nextId) ∧
    (∀ (s : MemState) (t₁ t₂ : String) (ops : List MOp),
      (memCreate s t₁).1.id <
        (memCreate (execOps (memCreate s t₁).2 ops) t₂).1.id) := by
  refine ⟨rfl, fun s t => ⟨rfl, rfl⟩, nextId_applyOp, fun s t₁ t₂ ops => ?_⟩
  show s.nextId < (execOps (memCreate s t₁).2 ops).nextId
  have h1 : (memCreate s t₁).2.nextId = s.nextId + 1 := rfl
  have h2 := nextId_le_execOps ops (memCreate s t₁).2
  omega

theorem find?_eq_none_of_dictGet_eq_none {d : List (Nat × Row)} {k : Nat}
    (h : dictGet d k = Option.none) :
    d.find? (fun p => p.1 == k) = Option.none := by
  unfold dictGet at h
  cases hf : d.find? (fun p => p.1 == k) with
  | none => rfl
  | some x => rw [hf] at h; simp at h

theorem find?_eq_some_of_dictGet_eq_some {d : List (Nat × Row)} {k : Nat} {row : Row}
    (h : dictGet d k = Option.some row) :
    ∃ p ∈ d, p.1 = k ∧ p.2 = row := by
  unfold dictGet at h
  cases hf : d.find? (fun p => p.1 == k) with
  | none => rw [hf] at h; simp at h
  | some p =>
    rw [hf] at h
    refine ⟨p, List.mem_of_find?_eq_some hf, ?_, by simpa using h⟩
    have := List.find?_some hf
    simpa using this

theorem keys_dictSet_of_isSome {d : List (Nat × Row)} {k : Nat} {v : Row}
    (h : (d.find? (fun p => p.1 == k)).isSome) :
    (dictSet d k v).map Prod.fst = d.map Prod.fst := by
  unfold dictSet
  rw [if_pos h, List.map_map]
  refine List.map_congr_left fun p _ => ?_
  by_cases hp : p.1 == k
  · have : p.1 = k := by simpa using hp
    simp [Function.comp, hp, this]
  · simp [Function.comp, hp]

theorem mem_dictSet {d : List (Nat × Row)} {k : Nat} {v : Row} {q : Nat × Row}
    (h : q ∈ dictSet d k v) : q = (k, v) ∨ q ∈ d := by
  unfold dictSet at h
  by_cases hs : (d.find? (fun p => p.1 == k)).isSome
  · rw [if_pos hs] at h
    obtain ⟨p, hp, hq⟩ := List.mem_map.mp h
    by_cases hpk : p.1 == k
    · left; rw [if_pos hpk] at hq; exact hq.symm
    · right; rw [if_neg hpk] at hq; exact hq ▸ hp
  · rw [if_neg hs] at h
    rcases List.mem_append.mp h with h' | h'
    · exact Or.inr h'
    · exact Or.inl (by simpa using h')

theorem memWF_memCreate (s : MemState) (t : String) (hwf : MemWF s) :
    MemWF (memCreate s t).2 := by
  have hd : dictGet s.data s.nextId = Option.none :=
    dictGet_eq_none_of_wf_nextId s hwf
  have hnone := find?_eq_none_of_dictGet_eq_none hd
  show MemWF { data := dictSet s.data s.nextId _, nextId := s.nextId + 1 }
  unfold dictSet
  rw [hnone]
  simp only [Option.isSome_none, Bool.false_eq_true, if_false]
  constructor
  · rw [List.map_append]
    rw [List.nodup_append]
    refine ⟨hwf.1, List.nodup_singleton _, ?_⟩
    intro x hx hx'
    obtain ⟨p, hp, hpx⟩ := List.mem_map.mp hx
    have : x = s.nextId := by simpa using hx'
    have hlt := (hwf.2 p hp).2
    omega
  · intro p hp
    rcases List.mem_append.mp hp with h' | h'
    · exact ⟨(hwf.2 p h').1, Nat.lt_succ_of_lt (hwf.2 p h').2⟩
    · have : p = (s.nextId, { id := s.nextId, title := t, done := .bool false }) := by
        simpa using h'
      subst this
      exact ⟨rfl, Nat.lt_succ_self _⟩

theorem memWF_dictSet_existing (s : MemState) (i : Nat) (row v : Row)
    (hd : dictGet s.data i = Option.some row) (hv : v.id = i)
    (hwf : MemWF s) : MemWF { s with data := dictSet s.data i v } := by
  obtain ⟨p₀, hp₀, hk₀, _⟩ := find?_eq_some_of_dictGet_eq_some hd
  have hsome : (s.data.find? (fun p => p.1 == i)).isSome := by
    unfold dictGet at hd
    cases hf : s.data.find? (fun p => p.1 == i) with
    | none => rw [hf] at hd; simp at hd
    | some x => simp
  constructor
  · show ((dictSet s.data i v).map Prod.fst).Nodup
    rw [keys_dictSet_of_isSome hsome]
    exact hwf.1
  · intro q hq
    rcases mem_dictSet hq with h' | h'
    · subst h'
      have hlt : i < s.nextId := hk₀ ▸ (hwf.2 p₀ hp₀).2
      exact ⟨hv, hlt⟩
    · exact hwf.2 q h'

theorem memWF_memUpdate (s : MemState) (i : Nat) (t : Option String)
    (d : Option PyVal) (hwf : MemWF s) : MemWF (memUpdate s i t d).2 := by
  unfold memUpdate
  cases hd : dictGet s.data i with
  | none => exact hwf
  | some row =>
    simp only
    have hid : row.id = i := by
      obtain ⟨p₀, hp₀, hk₀, hr₀⟩ := find?_eq_some_of_dictGet_eq_some hd
      rw [← hr₀, (hwf.2 p₀ hp₀).1, hk₀]
    refine memWF_dictSet_existing s i row _ hd ?_ hwf
    cases t <;> cases d <;> simp [hid]

theorem memWF_memDelete (s : MemState) (i : Nat) (hwf : MemWF s) :
    MemWF (memDelete s i).2 := by
  unfold memDelete
  cases hd : dictGet s.data i with
  | none => exact hwf
  | some row =>
    simp only
    constructor
    · exact List.Sublist.nodup (List.Sublist.map _ (List.eraseP_sublist _)) hwf.1
    · intro p hp
      exact hwf.2 p (List.mem_of_mem_eraseP hp)

theorem memWF_applyOp (s : MemState) (op : MOp) (hwf : MemWF s) :
    MemWF (applyOp s op) := by
  cases op with
  | create t => exact memWF_memCreate s t hwf
  | update i t d => exact memWF_memUpdate s i t d hwf
  | delete i => exact memWF_memDelete s i hwf

theorem memWF_memInit : MemWF memInit :=
  ⟨List.nodup_nil, fun p hp => absurd hp (List.not_mem_nil p)⟩

theorem memWF_execOps (ops : List MOp) :
    ∀ s : MemState, MemWF s → MemWF (execOps s ops) := by
  induction ops with
  | nil => exact fun s h => h
  | cons op ops ih => exact fun s h => ih (applyOp s op) (memWF_applyOp s op h)

theorem dictGet_dictPop_self (d : List (Nat × Row)) (k : Nat)
    (hnd : (d.map Prod.fst).Nodup) : dictGet (dictPop d k) k = Option.none := by
  induction d with
  | nil => rfl
  | cons p d ih =>
    unfold dictPop
    rw [List.eraseP_cons]
    by_cases hp : p.1 == k
    · simp only [hp, cond_true]
      have hk : p.1 = k := by simpa using hp
      unfold dictGet
      rw [List.find?_eq_none.mpr]
      · rfl
      · intro q hq hbeq
        have : q.1 = k := by simpa using hbeq
        have : p.1 ∈ d.map Prod.fst := hk ▸ this ▸ List.mem_map_of_mem Prod.fst hq
        exact (List.nodup_cons.mp hnd).1 this
    · simp only [hp, cond_false]
      unfold dictGet
      rw [List.find?_cons_of_neg (p := fun q : Nat × Row => q.1 == k) _ hp]
      exact ih (List.nodup_cons.mp hnd).2

/-- A row of the SQLite table `tasks(id, title, done)`: `done` is an
INTEGER column (this code writes only 0/1 into it). -/
structure SqlRow where
  id : Nat
  title : String
  done : Int
  deriving Repr, DecidableEq

/-- State of `SQLiteBackend`'s table: the rows (in rowid order) plus
the AUTOINCREMENT sequence (largest id ever assigned). -/
structure SqlState where
  rows : List SqlRow
  seq : Nat
  deriving Repr, DecidableEq

/-- Table right after `_init_schema` on a fresh file. -/
def sqlInit : SqlState := { rows := [], seq := 0 }

/-- `SQLiteBackend._row_to_dict`: `bool(row["done"])` on the INTEGER. -/
def sqlRowToDict (r : SqlRow) : Row :=
  { id := r.id, title := r.title, done := .bool (r.done != 0) }

/-- `SELECT ... WHERE id = ?` then `fetchone`, as in
`SQLiteBackend.get_task`. -/
def sqlGet (s : SqlState) (taskId : Nat) : Option Row :=
  (s.rows.find? (fun r => r.id == taskId)).map sqlRowToDict

/-- `SQLiteBackend.create_task`: INSERT with done = 0 (the id comes from
AUTOINCREMENT), then re-fetch the new id with `get_task`. -/
def sqlCreate (s : SqlState) (title : String) : Option Row × SqlState :=
  let newId := s.seq + 1
  let s' : SqlState :=
    { rows := s.rows ++ [{ id := newId, title := title, done := 0 }], seq := newId }
  (sqlGet s' newId, s')

/-- The row transformation performed by the dynamically built
`UPDATE tasks SET ... WHERE id = ?` statement. -/
def sqlApplySets (taskId : Nat) (title : Option String) (done : Option Bool)
    (r : SqlRow) : SqlRow :=
  if r.id == taskId then
    { r with
      title := title.getD r.title,
      done := match done with
        | Option.some b => if b then 1 else 0
        | Option.none => r.done }
  else r

/-- `SQLiteBackend.update_task`: skip the write entirely when neither
field is supplied; otherwise UPDATE only the supplied columns, then
re-fetch by id. -/
def sqlUpdate (s : SqlState) (taskId : Nat) (title : Option String)
    (done : Option Bool) : Option Row × SqlState :=
  if title = Option.none ∧ done = Option.none then
    (sqlGet s taskId, s)
  else
    let s' : SqlState := { s with rows := s.rows.map (sqlApplySets taskId title done) }
    (sqlGet s' taskId, s')

/-- `SQLiteBackend.delete_task`: `DELETE ... WHERE id = ?`; success is
`cur.rowcount > 0`. -/
def sqlDelete (s : SqlState) (taskId : Nat) : Bool × SqlState :=
  let n := s.rows.countP (fun r => r.id == taskId)
  (decide (0 < n), { s with rows := s.rows.filter (fun r => !(r.id == taskId)) })

theorem sqlApplySets_id (taskId : Nat) (title : Option String) (done : Option Bool)
    (r : SqlRow) : (sqlApplySets taskId title done r).id = r.id := by
  unfold sqlApplySets
  by_cases h : r.id == taskId <;> simp [h]

theorem find?_map_sqlApplySets (rows : List SqlRow) (taskId : Nat)
    (title : Option String) (done : Option Bool) :
    (rows.map (sqlApplySets taskId title done)).find? (fun r => r.id == taskId) =
      (rows.find? (fun r => r.id == taskId)).map (sqlApplySets taskId title done) := by
  rw [List.find?_map]
  have hpred : ((fun r : SqlRow => r.id == taskId) ∘ sqlApplySets taskId title done) =
      (fun r : SqlRow => r.id == taskId) := by
    funext r
    show ((sqlApplySets taskId title done r).id == taskId) = (r.id == taskId)
    rw [sqlApplySets_id]
  rw [hpred]

theorem dictSet_self_of_nodup {d : List (Nat × Row)} {i : Nat} {row : Row}
    (hnd : (d.map Prod.fst).Nodup) (hd : dictGet d i = Option.some row) :
    dictSet d i row = d := by
  obtain ⟨p₀, hp₀, hk₀, hr₀⟩ := find?_eq_some_of_dictGet_eq_some hd
  have hsome : (d.find? (fun p => p.1 == i)).isSome := by
    unfold dictGet at hd
    cases hf : d.find? (fun p => p.1 == i) with
    | none => rw [hf] at hd; simp at hd
    | some x => simp
  unfold dictSet
  rw [if_pos hsome]
  have : ∀ p ∈ d, (if p.1 == i then ((i, row) : Nat × Row) else p) = p := by
    intro p hp
    by_cases hpk : p.1 == i
    · rw [if_pos hpk]
      have hpi : p.1 = i := by simpa using hpk
      have : p = p₀ :=
        List.inj_on_of_nodup_map hnd hp hp₀ (by rw [hpi, hk₀])
      rw [this]
      rw [← hk₀, ← hr₀]
    · rw [if_neg hpk]
  rw [List.map_congr_left this]
  simp

/-- The record `MemoryBackend.update_task` is expected to leave behind:
supplied fields overwritten (`done` coerced with `bool`), absent fields
and the id kept. -/
def updatedRow (row : Row) (t : Option String) (d : Option PyVal) : Row :=
  { id := row.id,
    title := t.getD row.title,
    done := d.elim row.done (fun v => .bool (pyTruthy v)) }

/-- C3: `update_task` on an existing id overwrites exactly the supplied
fields, leaves absent fields (and the id) at their stored values, and
returns the full post-update record; with neither field supplied it is a
pure read: the state is unchanged and the current record is returned.
Stated for both the in-memory and the SQLite backend. -/
theorem update_frame_effect
    (s : MemState) (i : Nat) (row : Row) (t : Option String) (d : Option PyVal)
    (q : SqlState) (j : Nat) (r : SqlRow) (t' : Option String) (d' : Option Bool)
    (hmem : dictGet s.data i = Option.some row) (hwf : MemWF s)
    (hsql : q.rows.find? (fun x => x.id == j) = Option.some r) :
    (memUpdate s i t d =
      (Option.some (memToDict (updatedRow row t d)),
       { s with data := dictSet s.data i (updatedRow row t d) })) ∧
    (memUpdate s i Option.none Option.none = (Option.some (memToDict row), s)) ∧
    (sqlUpdate q j Option.none Option.none = (sqlGet q j, q)) ∧
    (¬(t' = Option.none ∧ d' = Option.none) →
      sqlUpdate q j t' d' =
        (Option.some (sqlRowToDict (sqlApplySets j t' d' r)),
         { q with rows := q.rows.map (sqlApplySets j t' d') })) := by
  refine ⟨?_, ?_, ?_, ?_⟩
  · unfold memUpdate
    rw [hmem]
    cases t <;> cases d <;> rfl
  · unfold memUpdate
    rw [hmem]
    simp only
    rw [dictSet_self_of_nodup hwf.1 hmem]
  · rfl
  · intro hne
    unfold sqlUpdate
    rw [if_neg hne]
    simp only
    unfold sqlGet
    simp only
    rw [find?_map_sqlApplySets, hsql]
    rfl

/-- Concrete instance of `update_frame_effect`: one task `"A"` in each
backend, updating `done` to true (the spec's own scenario). -/
theorem update_frame_effect_witness :
    (dictGet (memCreate memInit "A").2.data 1 =
        Option.some { id := 1, title := "A", done := .bool false } ∧
      MemWF (memCreate memInit "A").2 ∧
      (sqlCreate sqlInit "A").2.rows.find? (fun x => x.id == 1) =
        Option.some { id := 1, title := "A", done := 0 } ∧
      ¬((Option.none : Option String) = Option.none ∧
        (Option.some true : Option Bool) = Option.none)) ∧
    memUpdate (memCreate memInit "A").2 1 Option.none (Option.some (.bool true)) =
      (Option.some { id := 1, title := "A", done := .bool true },
       { (memCreate memInit "A").2 with
          data := dictSet (memCreate memInit "A").2.data 1
            { id := 1, title := "A", done := .bool true } }) ∧
    sqlUpdate (sqlCreate sqlInit "A").2 1 Option.none (Option.some true) =
      (Option.some { id := 1, title := "A", done := .bool true },
       { (sqlCreate sqlInit "A").2 with
          rows := (sqlCreate sqlInit "A").2.rows.map
            (sqlApplySets 1 Option.none (Option.some true)) }) := by
  have hmem : dictGet (memCreate memInit "A").2.data 1 =
      Option.some { id := 1, title := "A", done := .bool false } := by decide
  have hwf : MemWF (memCreate memInit "A").2 :=
    memWF_memCreate memInit "A" memWF_memInit
  have hsql : (sqlCreate sqlInit "A").2.rows.find? (fun x => x.id == 1) =
      Option.some { id := 1, title := "A", done := 0 } := by decide
  have hne : ¬((Option.none : Option String) = Option.none ∧
      (Option.some true : Option Bool) = Option.none) := by simp
  have h := update_frame_effect (memCreate memInit "A").2 1
    { id := 1, title := "A", done := .bool false }
    Option.none (Option.some (.bool true))
    (sqlCreate sqlInit "A").2 1 { id := 1, title := "A", done := 0 }
    Option.none (Option.some true) hmem hwf hsql
  exact ⟨⟨hmem, hwf, hsql, hne⟩, h.1, h.2.2.2 hne⟩

/-- C5: `delete_task(id)` returns true iff a task with that id existed
(and was removed); after a successful delete, `get_task(id)` is absent
and a second `delete_task(id)` returns false.  Stated for both the
in-memory and the SQLite backend (for SQLite the two after-delete facts
need no success hypothesis: `DELETE WHERE id` leaves no matching row
either way). -/
theorem delete_iff_existed
    (s : MemState) (i : Nat) (q : SqlState) (j : Nat) (hwf : MemWF s) :
    ((memDelete s i).1 = true ↔ memGet s i ≠ Option.none) ∧
    ((memDelete s i).1 = true →
      memGet (memDelete s i).2 i = Option.none ∧
      (memDelete (memDelete s i).2 i).1 = false) ∧
    ((sqlDelete q j).1 = true ↔ sqlGet q j ≠ Option.none) ∧
    sqlGet (sqlDelete q j).2 j = Option.none ∧
    (sqlDelete (sqlDelete q j).2 j).1 = false := by
  have hfilter : ∀ x ∈ q.rows.filter (fun r => !(r.id == j)), ¬((x.id == j) = true) := by
    intro x hx
    have := (List.mem_filter.mp hx).2
    simpa using this
  refine ⟨?_, ?_, ?_, ?_, ?_⟩
  · unfold memDelete
    cases hd : dictGet s.data i <;> simp [memGet, hd]
  · intro htrue
    have hd : ∃ row, dictGet s.data i = Option.some row := by
      unfold memDelete at htrue
      cases hx : dictGet s.data i with
      | none => rw [hx] at htrue; simp at htrue
      | some row => exact ⟨row, rfl⟩
    obtain ⟨row, hd⟩ := hd
    have h2 : (memDelete s i).2 = { s with data := dictPop s.data i } := by
      unfold memDelete; rw [hd]
    have hpop : dictGet (dictPop s.data i) i = Option.none :=
      dictGet_dictPop_self s.data i hwf.1
    constructor
    · rw [h2]
      show (dictGet (dictPop s.data i) i).map memToDict = Option.none
      rw [hpop]; rfl
    · rw [h2]
      unfold memDelete
      rw [show dictGet ({ s with data := dictPop s.data i } : MemState).data i =
        Option.none from hpop]
  · show (decide (0 < q.rows.countP fun r => r.id == j)) = true ↔ _
    rw [decide_eq_true_eq, List.countP_pos_iff]
    unfold sqlGet
    rw [Ne, Option.map_eq_none', ← Ne, Option.ne_none_iff_isSome, List.find?_isSome]
  · show ((q.rows.filter fun r => !(r.id == j)).find? (fun r => r.id == j)).map
        sqlRowToDict = Option.none
    rw [List.find?_eq_none.mpr hfilter]
    rfl
  · show (decide (0 < (q.rows.filter fun r => !(r.id == j)).countP fun r => r.id == j)) = false
    rw [List.countP_eq_zero.mpr hfilter]
    rfl

/-- Concrete instance of `delete_iff_existed`: one task in each backend,
deleted twice (the spec's own scenario). -/
theorem delete_iff_existed_witness :
    MemWF (memCreate memInit "To del").2 ∧
    (((memDelete (memCreate memInit "To del").2 1).1 = true ↔
        memGet (memCreate memInit "To del").2 1 ≠ Option.none) ∧
      ((memDelete (memCreate memInit "To del").2 1).1 = true →
        memGet (memDelete (memCreate memInit "To del").2 1).2 1 = Option.none ∧
        (memDelete (memDelete (memCreate memInit "To del").2 1).2 1).1 = false) ∧
      (((sqlDelete (sqlCreate sqlInit "X").2 1).1 = true ↔
        sqlGet (sqlCreate sqlInit "X").2 1 ≠ Option.none)) ∧
      sqlGet (sqlDelete (sqlCreate sqlInit "X").2 1).2 1 = Option.none ∧
      (sqlDelete (sqlDelete (sqlCreate sqlInit "X").2 1).2 1).1 = false) :=
  ⟨memWF_memCreate memInit "To del" memWF_memInit,
    delete_iff_existed (memCreate memInit "To del").2 1 (sqlCreate sqlInit "X").2 1
      (memWF_memCreate memInit "To del" memWF_memInit)⟩

/-- `SELECT ... ORDER BY id ASC` on the table. -/
def sortSqlRows (l : List SqlRow) : List SqlRow :=
  List.insertionSort (fun a b => a.id ≤ b.id) l

/-- `SQLiteBackend.get_all_tasks`. -/
def sqlGetAll (q : SqlState) : List Row :=
  (sortSqlRows q.rows).map sqlRowToDict

/-- Invariant of the SQLite table: primary-key uniqueness and the
AUTOINCREMENT sequence dominating every id. -/
def SqlWF (q : SqlState) : Prop :=
  (q.rows.map SqlRow.id).Nodup ∧ ∀ r ∈ q.rows, r.id ≤ q.seq

theorem sqlWF_sqlInit : SqlWF sqlInit :=
  ⟨List.nodup_nil, fun r hr => absurd hr (List.not_mem_nil r)⟩

theorem sqlWF_sqlCreate (q : SqlState) (t : String) (h : SqlWF q) :
    SqlWF (sqlCreate q t).2 := by
  constructor
  · show ((q.rows ++ [_]).map SqlRow.id).Nodup
    rw [List.map_append, List.nodup_append]
    refine ⟨h.1, List.nodup_singleton _, ?_⟩
    intro x hx hx'
    obtain ⟨r, hr, hrx⟩ := List.mem_map.mp hx
    have : x = q.seq + 1 := by simpa using hx'
    have := h.2 r hr
    omega
  · intro r hr
    rcases List.mem_append.mp hr with h' | h'
    · exact Nat.le_succ_of_le (h.2 r h')
    · have : r = { id := q.seq + 1, title := t, done := 0 } := by simpa using h'
      rw [this]
      exact Nat.le_refl _

theorem sqlWF_sqlUpdate (q : SqlState) (i : Nat) (t : Option String)
    (d : Option Bool) (h : SqlWF q) : SqlWF (sqlUpdate q i t d).2 := by
  unfold sqlUpdate
  by_cases hc : t = Option.none ∧ d = Option.none
  · rw [if_pos hc]; exact h
  · rw [if_neg hc]
    constructor
    · show ((q.rows.map (sqlApplySets i t d)).map SqlRow.id).Nodup
      rw [List.map_map]
      have : (SqlRow.id ∘ sqlApplySets i t d) = SqlRow.id := by
        funext r
        exact sqlApplySets_id i t d r
      rw [this]
      exact h.1
    · intro r hr
      obtain ⟨r₀, hr₀, hrr⟩ := List.mem_map.mp hr
      rw [← hrr]
      show (sqlApplySets i t d r₀).id ≤ q.seq
      rw [sqlApplySets_id]
      exact h.2 r₀ hr₀

theorem sqlWF_sqlDelete (q : SqlState) (i : Nat) (h : SqlWF q) :
    SqlWF (sqlDelete q i).2 := by
  constructor
  · exact List.Sublist.nodup (List.Sublist.map _ (List.filter_sublist _)) h.1
  · intro r hr
    exact h.2 r (List.mem_filter.mp hr).1

instance : IsTotal Row fun a b => a.id ≤ b.id := ⟨fun a b => Nat.le_total a.id b.id⟩

instance : IsTrans Row fun a b => a.id ≤ b.id := ⟨fun _ _ _ h₁ h₂ => Nat.le_trans h₁ h₂⟩

instance : IsTotal SqlRow fun a b => a.id ≤ b.id := ⟨fun a b => Nat.le_total a.id b.id⟩

instance : IsTrans SqlRow fun a b => a.id ≤ b.id := ⟨fun _ _ _ h₁ h₂ => Nat.le_trans h₁ h₂⟩

theorem pairwise_lt_of_sorted_nodup {α : Type} (key : α → Nat) {l : List α}
    (hle : List.Pairwise (fun a b => key a ≤ key b) l)
    (hnd : (l.map key).Nodup) : List.Pairwise (fun a b => key a < key b) l := by
  induction l with
  | nil => exact List.Pairwise.nil
  | cons x xs ih =>
    rw [List.map_cons, List.nodup_cons] at hnd
    rw [List.pairwise_cons] at hle ⊢
    refine ⟨fun y hy => ?_, ih hle.2 hnd.2⟩
    have h1 := hle.1 y hy
    have h2 : key x ≠ key y := fun he => hnd.1 (he ▸ List.mem_map_of_mem key hy)
    omega

/-- C7: `get_all_tasks` never fails: it returns exactly the stored
tasks, sorted in strictly ascending id order, and on a fresh in-memory
backend it returns the empty list.  Stated for both backends (id
uniqueness comes from the dict keys resp. the primary key). -/
theorem getAll_sorted (s : MemState) (q : SqlState) (hwf : MemWF s)
    (hq : (q.rows.map SqlRow.id).Nodup) :
    memGetAll memInit = [] ∧
    List.Pairwise (fun a b => a.id < b.id) (memGetAll s) ∧
    (memGetAll s).Perm (s.data.map fun p => memToDict p.2) ∧
    List.Pairwise (fun a b => a.id < b.id) (sqlGetAll q) ∧
    (sqlGetAll q).Perm (q.rows.map sqlRowToDict) := by
  have hsorted := List.sorted_insertionSort (fun a b : Row => a.id ≤ b.id)
    (s.data.map Prod.snd)
  have hperm := List.perm_insertionSort (fun a b : Row => a.id ≤ b.id)
    (s.data.map Prod.snd)
  have hids : (s.data.map Prod.snd).map Row.id = s.data.map Prod.fst := by
    rw [List.map_map]
    exact List.map_congr_left fun p hp => (hwf.2 p hp).1
  have hnv : ((s.data.map Prod.snd).map Row.id).Nodup := by rw [hids]; exact hwf.1
  have hnd : ((sortRows (s.data.map Prod.snd)).map Row.id).Nodup :=
    ((hperm.map Row.id).symm).nodup hnv
  have hplt := pairwise_lt_of_sorted_nodup Row.id hsorted hnd
  have hsortedq := List.sorted_insertionSort (fun a b : SqlRow => a.id ≤ b.id) q.rows
  have hpermq := List.perm_insertionSort (fun a b : SqlRow => a.id ≤ b.id) q.rows
  have hndq : ((sortSqlRows q.rows).map SqlRow.id).Nodup :=
    ((hpermq.map SqlRow.id).symm).nodup hq
  have hpltq := pairwise_lt_of_sorted_nodup SqlRow.id hsortedq hndq
  refine ⟨rfl, ?_, ?_, ?_, ?_⟩
  · show List.Pairwise _ ((sortRows (s.data.map Prod.snd)).map memToDict)
    rw [List.pairwise_map]
    exact hplt
  · show ((sortRows (s.data.map Prod.snd)).map memToDict).Perm _
    have := hperm.map memToDict
    rwa [List.map_map] at this
  · show List.Pairwise _ ((sortSqlRows q.rows).map sqlRowToDict)
    rw [List.pairwise_map]
    exact hpltq
  · exact hpermq.map sqlRowToDict

/-- Concrete instance of `getAll_sorted` with two tasks in each
backend. -/
theorem getAll_sorted_witness :
    (MemWF (memCreate (memCreate memInit "A").2 "B").2 ∧
      ((sqlCreate (sqlCreate sqlInit "A").2 "B").2.rows.map SqlRow.id).Nodup) ∧
    (memGetAll memInit = [] ∧
      List.Pairwise (fun a b => a.id < b.id)
        (memGetAll (memCreate (memCreate memInit "A").2 "B").2) ∧
      (memGetAll (memCreate (memCreate memInit "A").2 "B").2).Perm
        ((memCreate (memCreate memInit "A").2 "B").2.data.map fun p => memToDict p.2) ∧
      List.Pairwise (fun a b => a.id < b.id)
        (sqlGetAll (sqlCreate (sqlCreate sqlInit "A").2 "B").2) ∧
      (sqlGetAll (sqlCreate (sqlCreate sqlInit "A").2 "B").2).Perm
        ((sqlCreate (sqlCreate sqlInit "A").2 "B").2.rows.map sqlRowToDict)) :=
  ⟨⟨memWF_memCreate _ "B" (memWF_memCreate memInit "A" memWF_memInit), by decide⟩,
    getAll_sorted (memCreate (memCreate memInit "A").2 "B").2
      (sqlCreate (sqlCreate sqlInit "A").2 "B").2
      (memWF_memCreate _ "B" (memWF_memCreate memInit "A" memWF_memInit))
      (by decide)⟩

/-- The three storage backends of `db.py`. -/
inductive BackendKind where
  | memory
  | sqlite
  | postgres
  deriving Repr, DecidableEq

/-- The module-level backend selection of `db.py`, as a function of the
lowercased `FORCE_BACKEND` value, the stripped `DATABASE_URL`, whether
the `psycopg2` import succeeds when attempted, and whether the sqlite
data file exists.  `PG_AVAILABLE` is true exactly when `DATABASE_URL`
is nonempty and the import succeeded, as the module header computes
it. -/
def selectBackend (forceBackend dbUrl : String)
    (pgImportOk sqliteExists : Bool) : BackendKind :=
  let pgAvailable := dbUrl ≠ "" ∧ pgImportOk = true
  if forceBackend = "memory" then .memory
  else if forceBackend = "sqlite" then .sqlite
  else if forceBackend = "postgres" ∧ dbUrl ≠ "" ∧ pgAvailable then .postgres
  else if dbUrl ≠ "" ∧ pgAvailable then .postgres
  else if sqliteExists then .sqlite
  else .memory

/-- Modelled from the claim's words: honor an override naming a
backend, except that a postgres override whose connection configuration
is missing or whose client library is unavailable falls through to the
default chain (network backend if configured and available, else the
existing data file's sqlite backend, else memory). -/
def selectBackendSpec (forceBackend dbUrl : String)
    (pgImportOk sqliteExists : Bool) : BackendKind :=
  let networkReady := dbUrl ≠ "" ∧ pgImportOk = true
  let defaultChain : BackendKind :=
    if networkReady then .postgres
    else if sqliteExists then .sqlite
    else .memory
  if forceBackend = "memory" then .memory
  else if forceBackend = "sqlite" then .sqlite
  else if forceBackend = "postgres" then
    (if networkReady then .postgres else defaultChain)
  else defaultChain

/-- C2: the selector picks exactly the backend the spec's policy
describes, for every combination of override name, connection
configuration, client-library availability and data-file existence. -/
theorem backend_selection_matches_spec (fb dbUrl : String)
    (pgImportOk sqliteExists : Bool) :
    selectBackend fb dbUrl pgImportOk sqliteExists =
      selectBackendSpec fb dbUrl pgImportOk sqliteExists := by
  unfold selectBackend selectBackendSpec
  by_cases h1 : fb = "memory" <;> by_cases h2 : fb = "sqlite" <;>
    by_cases h3 : fb = "postgres" <;> by_cases h4 : dbUrl = "" <;>
    cases pgImportOk <;> cases sqliteExists <;> simp_all

/-- C10: every task record the in-memory backend hands back (from
`get_task`, `get_all_tasks`, `create_task` or `update_task`) carries
`done` as exactly True or False, because `_to_dict` applies `bool(...)`
on the way out; and a direct `update_task(..., done=v)` with any value
`v` stores and returns `bool(v)` — e.g. `done=1` becomes True. -/
theorem memDone_always_bool
    (s : MemState) (i : Nat) (t : String) (t? : Option String) (d? : Option PyVal)
    (v : PyVal) (row : Row) (hd : dictGet s.data i = Option.some row) :
    (∀ x ∈ memGet s i, x.done.isBool = true) ∧
    (∀ x ∈ memGetAll s, x.done.isBool = true) ∧
    ((memCreate s t).1.done.isBool = true) ∧
    (∀ x ∈ (memUpdate s i t? d?).1, x.done.isBool = true) ∧
    (memUpdate s i Option.none (Option.some v) =
      (Option.some { id := row.id, title := row.title, done := .bool (pyTruthy v) },
       { s with data := dictSet s.data i { row with done := .bool (pyTruthy v) } })) := by
  refine ⟨?_, ?_, rfl, ?_, ?_⟩
  · intro x hx
    unfold memGet at hx
    cases hg : dictGet s.data i with
    | none => rw [hg] at hx; simp at hx
    | some y =>
      rw [hg] at hx
      simp only [Option.map_some', Option.mem_def, Option.some.injEq] at hx
      rw [← hx]
      rfl
  · intro x hx
    obtain ⟨y, _, hy⟩ := List.mem_map.mp hx
    rw [← hy]
    rfl
  · intro x hx
    unfold memUpdate at hx
    cases hg : dictGet s.data i with
    | none => rw [hg] at hx; simp at hx
    | some y =>
      rw [hg] at hx
      simp only [Option.mem_def, Option.some.injEq] at hx
      rw [← hx]
      cases t? <;> cases d? <;> rfl
  · unfold memUpdate
    rw [hd]
    rfl

/-- Concrete instance of `memDone_always_bool`: one task, then a direct
`update_task(1, None, 1)` with the integer 1. -/
theorem memDone_always_bool_witness :
    dictGet (memCreate memInit "A").2.data 1 =
      Option.some { id := 1, title := "A", done := .bool false } ∧
    memUpdate (memCreate memInit "A").2 1 Option.none (Option.some (.int 1)) =
      (Option.some { id := 1, title := "A", done := .bool true },
       { (memCreate memInit "A").2 with
          data := dictSet (memCreate memInit "A").2.data 1
            { id := 1, title := "A", done := .bool true } }) :=
  ⟨by decide,
    (memDone_always_bool (memCreate memInit "A").2 1 "X" Option.none Option.none
      (.int 1) { id := 1, title := "A", done := .bool false } (by decide)).2.2.2.2⟩

/-- A parsed JSON value as `request.get_json` hands it to the handlers
(JSON `null` becomes Python `None`, objects become dicts). -/
inductive JVal where
  | null
  | bool (b : Bool)
  | int (n : Int)
  | str (s : String)
  | arr (xs : List JVal)
  | obj (kvs : List (String × JVal))

/-- Python truthiness of a parsed JSON value. -/
def jTruthy : JVal → Bool
  | .null => false
  | .bool b => b
  | .int n => n != 0
  | .str s => s != ""
  | .arr xs => !xs.isEmpty
  | .obj kvs => !kvs.isEmpty

/-- Python `data.get(k)` on a dict parsed from JSON: the value stored
under `k` (the JSON parser keeps the last duplicate), with a JSON
`null` value indistinguishable from a missing key (both are `None`). -/
def pyGetKey (kvs : List (String × JVal)) (k : String) : Option JVal :=
  match (kvs.reverse.find? (fun p => p.1 == k)).map Prod.snd with
  | Option.some .null => Option.none
  | o => o

/-- The characters Python `str.strip()` removes (ASCII whitespace; the
titles in play contain no exotic Unicode whitespace). -/
def pyIsSpace (c : Char) : Bool :=
  c = ' ' || c = '\t' || c = '\n' || c = '\r' || c = '\x0b' || c = '\x0c'

/-- `str.strip()` on the underlying character list. -/
def stripChars (l : List Char) : List Char :=
  ((l.dropWhile pyIsSpace).reverse.dropWhile pyIsSpace).reverse

/-- Python `str.strip()`. -/
def pyStrip (s : String) : String := ⟨stripChars s.data⟩

/-- Python `(v or "")` applied to the result of `data.get("title")`. -/
def orEmptyStr (v? : Option JVal) : JVal :=
  match v? with
  | Option.some v => if jTruthy v then v else JVal.str ""
  | Option.none => JVal.str ""

/-- Outcome of one request: an HTTP response, or an uncaught Python
exception escaping the handler (Flask turns that into a 500, not a
handler-chosen response). -/
inductive HResult where
  | resp (status : Nat) (body : JVal)
  | crash

/-- `jsonify({"error": msg})`. -/
def errObj (msg : String) : JVal := .obj [("error", .str msg)]

/-- A returned task dict rendered as the response JSON. -/
def rowJson (r : Row) : JVal :=
  .obj [("id", .int (r.id : Int)), ("title", .str r.title),
        ("done", match r.done with
          | .none => .null
          | .bool b => .bool b
          | .int n => .int n
          | .str s => .str s)]

/-- The `.strip()` call onward of the POST handler, applied to the
value of `(data.get("title") or "")`: a non-string raises
AttributeError, an empty result after stripping is a 400, else
`db.create_task(title)` and 201. -/
def titleToCreate (s : MemState) (v : JVal) : HResult × MemState :=
  match v with
  | .str t =>
    if pyStrip t = "" then (.resp 400 (errObj "'title' is required"), s)
    else (.resp 201 (rowJson (memCreate s (pyStrip t)).1), (memCreate s (pyStrip t)).2)
  | _ => (.crash, s)

/-- `POST /api/tasks` (`create` in `app.py`): parse the body (`none`
means `get_json` raised), default a falsy body to `{}`, then compute
`(data.get("title") or "").strip()` and continue as `titleToCreate`. -/
def createHandler (s : MemState) (body? : Option JVal) : HResult × MemState :=
  match body? with
  | Option.none => (.resp 400 (errObj "Invalid JSON body"), s)
  | Option.some b =>
    match (if jTruthy b then b else JVal.obj []) with
    | .obj kvs => titleToCreate s (orEmptyStr (pyGetKey kvs "title"))
    | _ => (.crash, s)

/-- Tail of the PUT handler after validation: `db.update_task` and the
404-or-200 mapping. -/
def finishUpdate (s : MemState) (taskId : Nat) (t : Option String)
    (d : Option PyVal) : HResult × MemState :=
  match memUpdate s taskId t d with
  | (Option.none, s') => (.resp 404 (errObj "Task not found"), s')
  | (Option.some r, s') => (.resp 200 (rowJson r), s')

/-- Tail of the PUT handler from the `title` validation on
(`if title is not None: ...` through the `db.update_task` call). -/
def titleCheckAndUpdate (s : MemState) (taskId : Nat) (title? : Option JVal)
    (d : Option PyVal) : HResult × MemState :=
  match title? with
  | Option.some (.str t) =>
    if pyStrip t = "" then (.resp 400 (errObj "'title' cannot be empty"), s)
    else finishUpdate s taskId (Option.some (pyStrip t)) d
  | Option.some _ => (.resp 400 (errObj "'title' must be string"), s)
  | Option.none => finishUpdate s taskId Option.none d

/-- `PUT /api/tasks/<id>` (`update` in `app.py`): parse the body,
default a falsy body to `{}`, read `title` and `done` with `.get`,
reject a non-bool `done`, then validate/strip the title and call
`db.update_task`; 404 when the id is absent. -/
def updateHandler (s : MemState) (taskId : Nat) (body? : Option JVal) :
    HResult × MemState :=
  match body? with
  | Option.none => (.resp 400 (errObj "Invalid JSON body"), s)
  | Option.some b =>
    match (if jTruthy b then b else JVal.obj []) with
    | .obj kvs =>
      match pyGetKey kvs "done" with
      | Option.some (.bool dv) =>
        titleCheckAndUpdate s taskId (pyGetKey kvs "title") (Option.some (.bool dv))
      | Option.some _ => (.resp 400 (errObj "'done' must be boolean"), s)
      | Option.none => titleCheckAndUpdate s taskId (pyGetKey kvs "title") Option.none
    | _ => (.crash, s)

/-- `DELETE /api/tasks/<id>` (`delete` in `app.py`). -/
def deleteHandler (s : MemState) (taskId : Nat) : HResult × MemState :=
  match memDelete s taskId with
  | (true, s') => (.resp 200 (JVal.obj [("status", .str "deleted")]), s')
  | (false, s') => (.resp 404 (errObj "Task not found"), s')

/-- One state-changing HTTP request against the in-memory backend. -/
inductive HOp where
  | post (body? : Option JVal)
  | put (taskId : Nat) (body? : Option JVal)
  | del (taskId : Nat)

/-- State left behind by one HTTP request. -/
def applyHOp (s : MemState) : HOp → MemState
  | .post b => (createHandler s b).2
  | .put i b => (updateHandler s i b).2
  | .del i => (deleteHandler s i).2

/-- State after a sequence of HTTP requests. -/
def execHOps (s : MemState) (ops : List HOp) : MemState := ops.foldl applyHOp s

/-- C4: evidence at the failing input.  POST /api/tasks with body
`{"title": 123}` reaches `(123).strip()` and raises AttributeError —
an uncaught exception escaping the handler (a 500-class failure), not
the 400 the error-handling policy promises for mistyped fields.  For
contrast: an unparseable body is answered with 400, a falsy non-string
title (`0`) is answered with 400, and the PUT handler answers 400 for
the same mistyped title. -/
theorem create_nonstring_title_crashes :
    createHandler memInit (Option.some (JVal.obj [("title", JVal.int 123)])) =
      (HResult.crash, memInit) ∧
    (createHandler memInit Option.none).1 = HResult.resp 400 (errObj "Invalid JSON body") ∧
    (createHandler memInit (Option.some (JVal.obj [("title", JVal.int 0)]))).1 =
      HResult.resp 400 (errObj "'title' is required") ∧
    (updateHandler memInit 1 (Option.some (JVal.obj [("title", JVal.int 123)]))).1 =
      HResult.resp 400 (errObj "'title' must be string") :=
  ⟨rfl, rfl, rfl, rfl⟩

/-- C8: at PUT, a JSON `null` field value is indistinguishable from an
omitted field (`data.get` returns `None` for both): the handler's
response and resulting state on `{"done": null}` and `{"title": null}`
coincide with those on `{}`, and on an existing id that is a 200 with
the stored task unchanged. -/
theorem put_null_field_like_omitted
    (s : MemState) (i : Nat) (row : Row) (hwf : MemWF s)
    (hd : dictGet s.data i = Option.some row) :
    updateHandler s i (Option.some (JVal.obj [("done", JVal.null)])) =
      updateHandler s i (Option.some (JVal.obj [])) ∧
    updateHandler s i (Option.some (JVal.obj [("title", JVal.null)])) =
      updateHandler s i (Option.some (JVal.obj [])) ∧
    updateHandler s i (Option.some (JVal.obj [("done", JVal.null)])) =
      (HResult.resp 200 (rowJson (memToDict row)), s) := by
  have hupd : memUpdate s i Option.none Option.none =
      (Option.some (memToDict row), s) := by
    unfold memUpdate
    rw [hd]
    simp only
    rw [dictSet_self_of_nodup hwf.1 hd]
  refine ⟨rfl, rfl, ?_⟩
  show finishUpdate s i Option.none Option.none = _
  unfold finishUpdate
  rw [hupd]

/-- Concrete instance of `put_null_field_like_omitted`: one task
`"A"`, PUT bodies `{"done": null}`, `{"title": null}` and `{}`. -/
theorem put_null_field_like_omitted_witness :
    (MemWF (memCreate memInit "A").2 ∧
      dictGet (memCreate memInit "A").2.data 1 =
        Option.some { id := 1, title := "A", done := .bool false }) ∧
    (updateHandler (memCreate memInit "A").2 1
        (Option.some (JVal.obj [("done", JVal.null)])) =
      updateHandler (memCreate memInit "A").2 1 (Option.some (JVal.obj [])) ∧
    updateHandler (memCreate memInit "A").2 1
        (Option.some (JVal.obj [("title", JVal.null)])) =
      updateHandler (memCreate memInit "A").2 1 (Option.some (JVal.obj [])) ∧
    updateHandler (memCreate memInit "A").2 1
        (Option.some (JVal.obj [("done", JVal.null)])) =
      (HResult.resp 200 (rowJson (memToDict { id := 1, title := "A", done := .bool false })),
       (memCreate memInit "A").2)) :=
  ⟨⟨memWF_memCreate memInit "A" memWF_memInit, by decide⟩,
    put_null_field_like_omitted (memCreate memInit "A").2 1
      { id := 1, title := "A", done := .bool false }
      (memWF_memCreate memInit "A" memWF_memInit) (by decide)⟩

theorem dropWhile_eq_self_of_head {α : Type} (p : α → Bool) (l : List α)
    (h : ∀ a, l.head? = Option.some a → p a = false) : l.dropWhile p = l := by
  cases l with
  | nil => rfl
  | cons x xs =>
    have hx := h x rfl
    rw [List.dropWhile_cons, if_neg (by simp [hx])]

theorem head?_dropWhile_false {α : Type} (p : α → Bool) (l : List α) (a : α)
    (h : (l.dropWhile p).head? = Option.some a) : p a = false := by
  have := List.head?_dropWhile_not p l
  rw [h] at this
  exact this

theorem getLast?_dropWhile_of_ne_nil {α : Type} (p : α → Bool) (l : List α)
    (h : l.dropWhile p ≠ []) : (l.dropWhile p).getLast? = l.getLast? := by
  obtain ⟨pre, hpre⟩ := List.dropWhile_suffix (l := l) p
  cases hg : (l.dropWhile p).getLast? with
  | none => exact absurd (List.getLast?_eq_none_iff.mp hg) h
  | some x =>
    rw [← hpre, List.getLast?_append, hg]
    rfl

theorem stripChars_head_false (l : List Char) (a : Char)
    (h : (stripChars l).head? = Option.some a) : pyIsSpace a = false := by
  unfold stripChars at h
  rw [List.head?_reverse] at h
  have hne : ((l.dropWhile pyIsSpace).reverse.dropWhile pyIsSpace) ≠ [] := by
    intro he
    rw [he] at h
    simp at h
  rw [getLast?_dropWhile_of_ne_nil _ _ hne, List.getLast?_reverse] at h
  exact head?_dropWhile_false _ _ _ h

theorem stripChars_getLast_false (l : List Char) (a : Char)
    (h : (stripChars l).getLast? = Option.some a) : pyIsSpace a = false := by
  unfold stripChars at h
  rw [List.getLast?_reverse] at h
  exact head?_dropWhile_false _ _ _ h

theorem stripChars_eq_self (l : List Char)
    (h1 : ∀ a, l.head? = Option.some a → pyIsSpace a = false)
    (h2 : ∀ a, l.getLast? = Option.some a → pyIsSpace a = false) :
    stripChars l = l := by
  unfold stripChars
  rw [dropWhile_eq_self_of_head _ _ h1]
  rw [dropWhile_eq_self_of_head _ _
    (fun a ha => h2 a (by rwa [List.head?_reverse] at ha))]
  exact List.reverse_reverse l

theorem stripChars_idem (l : List Char) :
    stripChars (stripChars l) = stripChars l :=
  stripChars_eq_self _ (stripChars_head_false l) (stripChars_getLast_false l)

theorem pyStrip_idem (t : String) : pyStrip (pyStrip t) = pyStrip t :=
  congrArg (fun l => (⟨l⟩ : String)) (stripChars_idem t.data)

theorem finishUpdate_state (s : MemState) (i : Nat) (t : Option String)
    (d : Option PyVal) : (finishUpdate s i t d).2 = (memUpdate s i t d).2 := by
  unfold finishUpdate
  cases hm : memUpdate s i t d with
  | mk r? s' => cases r? <;> rfl

theorem titleToCreate_state (s : MemState) (v : JVal) :
    (titleToCreate s v).2 = s ∨
    ∃ u : String, (titleToCreate s v).2 = (memCreate s (pyStrip u)).2 := by
  unfold titleToCreate
  split
  · split
    · exact Or.inl rfl
    · exact Or.inr ⟨_, rfl⟩
  · exact Or.inl rfl

theorem createHandler_state (s : MemState) (b? : Option JVal) :
    (createHandler s b?).2 = s ∨
    ∃ u : String, (createHandler s b?).2 = (memCreate s (pyStrip u)).2 := by
  unfold createHandler
  rcases b? with _ | b
  · exact Or.inl rfl
  · dsimp only
    split
    all_goals first
      | exact titleToCreate_state s _
      | exact Or.inl rfl

theorem titleCheckAndUpdate_state (s : MemState) (i : Nat) (title? : Option JVal)
    (d : Option PyVal) :
    (titleCheckAndUpdate s i title? d).2 = s ∨
    ∃ t : Option String,
      (t = Option.none ∨ ∃ t₀, t = Option.some (pyStrip t₀)) ∧
      (titleCheckAndUpdate s i title? d).2 = (memUpdate s i t d).2 := by
  unfold titleCheckAndUpdate
  split
  all_goals first
    | exact Or.inl rfl
    | exact Or.inr ⟨Option.none, Or.inl rfl, finishUpdate_state s i Option.none d⟩
    | (split
       · exact Or.inl rfl
       · exact Or.inr ⟨Option.some (pyStrip _), Or.inr ⟨_, rfl⟩,
           finishUpdate_state s i _ d⟩)

theorem updateHandler_state (s : MemState) (i : Nat) (b? : Option JVal) :
    (updateHandler s i b?).2 = s ∨
    ∃ (t : Option String) (d : Option PyVal),
      (t = Option.none ∨ ∃ t₀, t = Option.some (pyStrip t₀)) ∧
      (updateHandler s i b?).2 = (memUpdate s i t d).2 := by
  unfold updateHandler
  rcases b? with _ | b
  · exact Or.inl rfl
  · dsimp only
    split
    all_goals try exact Or.inl rfl
    split
    all_goals first
      | exact Or.inl rfl
      | (rcases titleCheckAndUpdate_state s i _ _ with he | ⟨t, ht, he⟩
         · exact Or.inl he
         · exact Or.inr ⟨t, _, ht, he⟩)

theorem deleteHandler_state (s : MemState) (i : Nat) :
    (deleteHandler s i).2 = (memDelete s i).2 := by
  unfold deleteHandler
  cases hm : memDelete s i with
  | mk ok s' => cases ok <;> rfl

/-- Invariant: no stored title has leading or trailing whitespace
(every stored title is its own stripped form). -/
def TitlesStripped (s : MemState) : Prop :=
  ∀ p ∈ s.data, pyStrip p.2.title = p.2.title

theorem titlesStripped_memInit : TitlesStripped memInit :=
  fun p hp => absurd hp (List.not_mem_nil p)

theorem titlesStripped_memCreate (s : MemState) (u : String)
    (h : TitlesStripped s) (hu : pyStrip u = u) :
    TitlesStripped (memCreate s u).2 := by
  intro q hq
  rcases mem_dictSet hq with rfl | hq'
  · exact hu
  · exact h q hq'

theorem titlesStripped_memUpdate (s : MemState) (i : Nat) (t : Option String)
    (d : Option PyVal) (h : TitlesStripped s)
    (ht : t = Option.none ∨ ∃ t₀, t = Option.some (pyStrip t₀)) :
    TitlesStripped (memUpdate s i t d).2 := by
  unfold memUpdate
  cases hd : dictGet s.data i with
  | none => exact h
  | some row =>
    dsimp only
    intro q hq
    rcases mem_dictSet hq with rfl | hq'
    · obtain ⟨p₀, hp₀, hk₀, hr₀⟩ := find?_eq_some_of_dictGet_eq_some hd
      have hrow : pyStrip row.title = row.title := by
        have := h p₀ hp₀
        rwa [hr₀] at this
      rcases ht with rfl | ⟨t₀, rfl⟩
      · cases d <;> exact hrow
      · cases d <;> exact pyStrip_idem t₀
    · exact h q hq'

theorem titlesStripped_memDelete (s : MemState) (i : Nat)
    (h : TitlesStripped s) : TitlesStripped (memDelete s i).2 := by
  unfold memDelete
  cases hd : dictGet s.data i with
  | none => exact h
  | some row =>
    intro q hq
    exact h q (List.mem_of_mem_eraseP hq)

theorem titlesStripped_applyHOp (s : MemState) (op : HOp)
    (h : TitlesStripped s) : TitlesStripped (applyHOp s op) := by
  cases op with
  | post b =>
    show TitlesStripped (createHandler s b).2
    rcases createHandler_state s b with he | ⟨u, he⟩
    · rw [he]; exact h
    · rw [he]; exact titlesStripped_memCreate s _ h (pyStrip_idem u)
  | put i b =>
    show TitlesStripped (updateHandler s i b).2
    rcases updateHandler_state s i b with he | ⟨t, d, ht, he⟩
    · rw [he]; exact h
    · rw [he]; exact titlesStripped_memUpdate s i t d h ht
  | del i =>
    show TitlesStripped (deleteHandler s i).2
    rw [deleteHandler_state]
    exact titlesStripped_memDelete s i h

theorem titlesStripped_execHOps (ops : List HOp) :
    ∀ s, TitlesStripped s → TitlesStripped (execHOps s ops) := by
  induction ops with
  | nil => exact fun s h => h
  | cons op ops ih => exact fun s h => ih _ (titlesStripped_applyHOp s op h)

/-- C9: titles stored through the HTTP interface are the trimmed form
of the client-supplied string: a POST whose title strips to something
non-empty answers 201 and stores the stripped title under the fresh id;
a PUT on an existing id stores and returns the stripped title; and
consequently every state reachable from a fresh backend through the
HTTP handlers holds only titles without surrounding whitespace. -/
theorem http_titles_trimmed
    (s : MemState) (t : String) (i : Nat) (row : Row) (ops : List HOp)
    (ht : pyStrip t ≠ "") (hd : dictGet s.data i = Option.some row) :
    createHandler s (Option.some (JVal.obj [("title", JVal.str t)])) =
      (HResult.resp 201 (rowJson (memCreate s (pyStrip t)).1),
       (memCreate s (pyStrip t)).2) ∧
    dictGet (createHandler s (Option.some (JVal.obj [("title", JVal.str t)]))).2.data
        s.nextId =
      Option.some { id := s.nextId, title := pyStrip t, done := .bool false } ∧
    updateHandler s i (Option.some (JVal.obj [("title", JVal.str t)])) =
      (HResult.resp 200 (rowJson (memToDict ({ row with title := pyStrip t }))),
       { s with data := dictSet s.data i ({ row with title := pyStrip t }) }) ∧
    TitlesStripped (execHOps memInit ops) := by
  have htne : t ≠ "" := fun he => ht (by rw [he]; rfl)
  have hjt : jTruthy (JVal.str t) = true := by
    show (t != "") = true
    simpa using htne
  have hor : orEmptyStr (pyGetKey [("title", JVal.str t)] "title") = JVal.str t := by
    show (if jTruthy (JVal.str t) then JVal.str t else JVal.str "") = JVal.str t
    rw [if_pos hjt]
  have hpost : createHandler s (Option.some (JVal.obj [("title", JVal.str t)])) =
      (HResult.resp 201 (rowJson (memCreate s (pyStrip t)).1),
       (memCreate s (pyStrip t)).2) := by
    show titleToCreate s (orEmptyStr (pyGetKey [("title", JVal.str t)] "title")) = _
    rw [hor]
    unfold titleToCreate
    dsimp only
    rw [if_neg ht]
  refine ⟨hpost, ?_, ?_, titlesStripped_execHOps ops memInit titlesStripped_memInit⟩
  · rw [hpost]
    exact dictGet_dictSet_self s.data s.nextId _
  · have hupd : memUpdate s i (Option.some (pyStrip t)) Option.none =
        (Option.some (memToDict ({ row with title := pyStrip t })),
         { s with data := dictSet s.data i ({ row with title := pyStrip t }) }) := by
      unfold memUpdate
      rw [hd]
    show titleCheckAndUpdate s i (Option.some (JVal.str t)) Option.none = _
    unfold titleCheckAndUpdate
    dsimp only
    rw [if_neg ht]
    unfold finishUpdate
    rw [hupd]

/-- Concrete instance of `http_titles_trimmed`: title `" A "` posted to
a backend holding one task and put onto that task, plus one concrete
request trace; `" A "` strips to `"A"`. -/
theorem http_titles_trimmed_witness :
    (pyStrip " A " ≠ "" ∧
      dictGet (memCreate memInit "Seed").2.data 1 =
        Option.some { id := 1, title := "Seed", done := .bool false } ∧
      pyStrip " A " = "A") ∧
    (createHandler (memCreate memInit "Seed").2
        (Option.some (JVal.obj [("title", JVal.str " A ")])) =
      (HResult.resp 201
        (rowJson (memCreate (memCreate memInit "Seed").2 (pyStrip " A ")).1),
       (memCreate (memCreate memInit "Seed").2 (pyStrip " A ")).2) ∧
    dictGet (createHandler (memCreate memInit "Seed").2
        (Option.some (JVal.obj [("title", JVal.str " A ")]))).2.data
        (memCreate memInit "Seed").2.nextId =
      Option.some { id := (memCreate memInit "Seed").2.nextId,
                    title := pyStrip " A ", done := .bool false } ∧
    updateHandler (memCreate memInit "Seed").2 1
        (Option.some (JVal.obj [("title", JVal.str " A ")])) =
      (HResult.resp 200 (rowJson (memToDict
        ({ ({ id := 1, title := "Seed", done := .bool false } : Row) with
           title := pyStrip " A " }))),
       { (memCreate memInit "Seed").2 with
          data := dictSet (memCreate memInit "Seed").2.data 1
            ({ ({ id := 1, title := "Seed", done := .bool false } : Row) with
               title := pyStrip " A " }) }) ∧
    TitlesStripped (execHOps memInit
      [HOp.post (Option.some (JVal.obj [("title", JVal.str " A ")]))])) :=
  ⟨⟨by decide, by decide, by decide⟩,
    http_titles_trimmed (memCreate memInit "Seed").2 " A " 1
      { id := 1, title := "Seed", done := .bool false }
      [HOp.post (Option.some (JVal.obj [("title", JVal.str " A ")]))]
      (by decide) (by decide)⟩

end TaskTracker
